import Mathlib

/-
Verification of the streaming response transformer and request mapping of
the OpenAI-to-NVIDIA-NIM proxy (src/server.js).

The embedding models, from the source:
  * the frame reassembler (server.js lines 94-100): append each chunk to the
    pending buffer, split on the newline character, pop the last segment back
    into the buffer, emit the remaining segments as lines;
  * the per-line event pipeline (lines 102-150): trim, skip non-data lines,
    terminal sentinel handling, JSON parse (modelled as an arbitrary function
    into the typed event shape, universally quantified in the theorems),
    the reasoning/content channel merger, and the re-emitted frame;
  * model-name resolution and outbound request construction (lines 24-32 and
    62-82), including JavaScript truthiness of the defaulting operators.

JavaScript strings are modelled by Lean strings (the reassembler works on
lists of characters, matching the split-on-newline semantics of
String.prototype.split), absent-or-null JSON fields by Option, and the
JavaScript truthiness tests on strings (empty string is falsy) and numbers
(zero is falsy) by explicit functions below.
-/

/-- Truthiness of an optional JavaScript string value: undefined, null and
the empty string are falsy; every other string is truthy. -/
def truthy : Option String → Bool
  | none => false
  | some s => !s.data.isEmpty

/-- A whitespace character of the kinds JavaScript String.prototype.trim
removes that occur in this protocol (space, tab, carriage return, newline). -/
def isWs (c : Char) : Bool := c == ' ' || c == '\t' || c == '\r' || c == '\n'

/-- JavaScript String.prototype.trim. -/
def jsTrim (s : String) : String :=
  ⟨((s.data.dropWhile isWs).reverse.dropWhile isWs).reverse⟩

/-- Dropping the first n characters of a string (String.prototype.slice from
a character index). -/
def jsDrop (s : String) (n : Nat) : String := ⟨s.data.drop n⟩

/-- JavaScript String.prototype.toLowerCase, restricted to the per-character
lowering the model identifiers in this program use. -/
def jsLower (s : String) : String := ⟨s.data.map Char.toLower⟩

/-- One list is a prefix of another, as a boolean. -/
def hasPrefixL : List Char → List Char → Bool
  | [], _ => true
  | _ :: _, [] => false
  | a :: as, b :: bs => a == b && hasPrefixL as bs

/-- The first list occurs as a contiguous infix of the second, as a boolean. -/
def hasInfixL (needle : List Char) : List Char → Bool
  | [] => needle.isEmpty
  | b :: bs => hasPrefixL needle (b :: bs) || hasInfixL needle bs

/-- JavaScript String.prototype.includes. -/
def jsIncludes (s sub : String) : Bool := hasInfixL sub.data s.data

/-- JavaScript String.prototype.startsWith. -/
def jsStartsWith (s pre : String) : Bool := hasPrefixL pre.data s.data

/-- JavaScript String.prototype.split with separator a single newline
character, on the character list of the string: always returns at least one
segment, the segments between the newline characters. -/
def splitNl : List Char → List (List Char)
  | [] => [[]]
  | c :: rest =>
    if c = '\n' then [] :: splitNl rest
    else
      match splitNl rest with
      | [] => [[c]]
      | s :: ss => (c :: s) :: ss

/-- One step of the frame reassembler (server.js lines 98-100):
`buffer += chunk; const lines = buffer.split('\n'); buffer = lines.pop() || ''`.
Returns the emitted complete lines and the new pending buffer. -/
def handleChunk (buffer chunk : List Char) : List (List Char) × List Char :=
  let lines := splitNl (buffer ++ chunk)
  (lines.dropLast, lines.getLastD [])

/-- Feeding a whole sequence of chunks through the reassembler, collecting
every emitted line in order together with the final pending buffer (which the
program discards when the backend stream ends). -/
def feedAll (buffer : List Char) : List (List Char) → List (List Char) × List Char
  | [] => ([], buffer)
  | chunk :: rest =>
    let p := handleChunk buffer chunk
    let q := feedAll p.2 rest
    (p.1 ++ q.1, q.2)

/-- The complete frames of a character sequence paired with its unterminated
tail: the first component lists the segments terminated by a newline, the
second is everything after the last newline. -/
def splitFrames : List Char → List (List Char) × List Char
  | [] => ([], [])
  | c :: rest =>
    if c = '\n' then ([] :: (splitFrames rest).1, (splitFrames rest).2)
    else
      match splitFrames rest with
      | ([], buf) => ([], c :: buf)
      | (f :: fs, buf) => ((c :: f) :: fs, buf)

/-- The delta object of one backend event: the two optional text channels the
transformer reads (server.js lines 116-118). A JSON field that is absent or
null is `none`. -/
structure DeltaObj where
  reasoning_content : Option String
  content : Option String
deriving DecidableEq

/-- A parsed backend chat event, restricted to the structure the transformer
touches: the list of choices, each carrying an optional delta object. -/
structure ChatEvent where
  choices : List (Option DeltaObj)
deriving DecidableEq

/-- `data?.choices?.[0]?.delta` (server.js line 115). -/
def firstDelta (e : ChatEvent) : Option DeltaObj :=
  match e.choices with
  | [] => none
  | od :: _ => od

/-- In-place update of the first choice's delta object
(`data.choices[0].delta.content = ...` together with
`delete data.choices[0].delta.reasoning_content`). -/
def setFirstDelta (e : ChatEvent) (d : DeltaObj) : ChatEvent :=
  match e.choices with
  | [] => e
  | _ :: rest => ⟨some d :: rest⟩

/-- JSON string literal quoting (escaping is irrelevant for the texts the
claims evaluate). -/
def quoteStr (s : String) : String := "\"" ++ s ++ "\""

/-- Serialization of a delta object: present fields only, in source order. -/
def serializeDelta (d : DeltaObj) : String :=
  "\x7b" ++
    (match d.reasoning_content with
     | some r => "\"reasoning_content\":" ++ quoteStr r ++
         (if d.content.isSome then "," else "")
     | none => "") ++
    (match d.content with
     | some c => "\"content\":" ++ quoteStr c
     | none => "") ++ "\x7d"

/-- Serialization of one choice. -/
def serializeChoice : Option DeltaObj → String
  | none => "\x7b\x7d"
  | some d => "\x7b\"delta\":" ++ serializeDelta d ++ "\x7d"

/-- Serialization of a whole parsed event, the payload `JSON.stringify(data)`
re-emits (server.js line 145). -/
def serializeEvent (e : ChatEvent) : String :=
  "\x7b\"choices\":[" ++ String.intercalate "," (e.choices.map serializeChoice) ++ "]\x7d"

/-- The process-wide reasoning display toggle, exactly as defined at
server.js line 18. -/
def SHOW_REASONING : Bool := false

/-- The show-reasoning branch of the channel merger (server.js lines
120-134), as a function of the `reasoningStarted` flag and the two optional
channel texts; returns the combined content and the new flag. -/
def mergeShow (reasoningStarted : Bool) (reasoning content : Option String) :
    String × Bool :=
  let c1 : String × Bool :=
    if truthy reasoning && !reasoningStarted then
      ("<think>\n" ++ reasoning.getD "", true)
    else if truthy reasoning then
      (reasoning.getD "", reasoningStarted)
    else ("", reasoningStarted)
  if truthy content && c1.2 then
    (c1.1 ++ ("</think>\n\n" ++ content.getD ""), false)
  else if truthy content then
    (c1.1 ++ content.getD "", c1.2)
  else c1

/-- The channel merger under either display policy: the show branch above, or
the hide branch `content || ''` (server.js line 142) which never touches the
flag. -/
def mergeDelta (showR st : Bool) (reasoning content : Option String) :
    String × Bool :=
  if showR then mergeShow st reasoning content
  else (content.getD "", st)

/-- The show-policy transition function exactly as the specification words
it (spec section 4.3): the reasoning transition applied first, then the
answer transition, their outputs concatenated. This definition follows the
spec text and is compared with the source-derived `mergeShow`. -/
def specMergeShow (st : Bool) (r a : Option String) : String × Bool :=
  let p1 : String × Bool :=
    if truthy r then
      (if st then (r.getD "", true) else ("<think>\n" ++ r.getD "", true))
    else ("", st)
  let p2 : String × Bool :=
    if truthy a then
      (if p1.2 then ("</think>\n\n" ++ a.getD "", false) else (a.getD "", false))
    else ("", p1.2)
  (p1.1 ++ p2.1, p2.2)

/-- Output tokens of the show-policy merger: the literal open marker, the
literal close marker, or plain channel text. -/
inductive RTok where
  | topen : RTok
  | tclose : RTok
  | txt : String → RTok
deriving DecidableEq

/-- The literal text of one output token. -/
def renderTok : RTok → String
  | .topen => "<think>\n"
  | .tclose => "</think>\n\n"
  | .txt s => s

/-- Concatenated text of a token sequence. -/
def renderToks : List RTok → String
  | [] => ""
  | t :: ts => renderTok t ++ renderToks ts

/-- The show-policy merger at the token level: same branch structure as
`mergeShow`, emitting marker tokens instead of inlined marker text. -/
def mergeShowToks (st : Bool) (reasoning content : Option String) :
    List RTok × Bool :=
  let c1 : List RTok × Bool :=
    if truthy reasoning && !st then
      ([RTok.topen, RTok.txt (reasoning.getD "")], true)
    else if truthy reasoning then
      ([RTok.txt (reasoning.getD "")], st)
    else ([], st)
  if truthy content && c1.2 then
    (c1.1 ++ [RTok.tclose, RTok.txt (content.getD "")], false)
  else if truthy content then
    (c1.1 ++ [RTok.txt (content.getD "")], c1.2)
  else c1

/-- Running the show-policy merger over a whole stream of delta events,
collecting the emitted text of each event. -/
def runShow (st : Bool) : List DeltaObj → List String × Bool
  | [] => ([], st)
  | d :: ds =>
    let p := mergeShow st d.reasoning_content d.content
    let q := runShow p.2 ds
    (p.1 :: q.1, q.2)

/-- Running the token-level show-policy merger over a whole stream. -/
def runShowToks (st : Bool) : List DeltaObj → List RTok × Bool
  | [] => ([], st)
  | d :: ds =>
    let p := mergeShowToks st d.reasoning_content d.content
    let q := runShowToks p.2 ds
    (p.1 ++ q.1, q.2)

/-- Concatenation of a list of strings. -/
def sjoin : List String → String
  | [] => ""
  | s :: ss => s ++ sjoin ss

/-- Whether a token is an open or close marker. -/
def isMarker : RTok → Bool
  | .txt _ => false
  | _ => true

/-- The subsequence of marker tokens of an output token sequence. -/
def markerSeq (ts : List RTok) : List RTok := ts.filter isMarker

/-- n correctly paired, non-overlapping open/close marker pairs. -/
def pairSeq : Nat → List RTok
  | 0 => []
  | n + 1 => RTok.topen :: RTok.tclose :: pairSeq n

/-- The number of reasoning-start deltas of a stream: deltas whose truthy
reasoning text arrives while the reasoning block is closed, threading the
merger state. -/
def startCount (st : Bool) : List DeltaObj → Nat
  | [] => 0
  | d :: ds =>
    (if truthy d.reasoning_content && !st then 1 else 0) +
      startCount (mergeShowToks st d.reasoning_content d.content).2 ds

/-- A marker sequence that is legal between the two given flag states: opens
only happen when the block is closed, closes only when it is open. -/
inductive MarkerRun : Bool → List RTok → Bool → Prop where
  | nil (st : Bool) : MarkerRun st [] st
  | openStep (ms : List RTok) (st' : Bool) :
      MarkerRun true ms st' → MarkerRun false (RTok.topen :: ms) st'
  | closeStep (ms : List RTok) (st' : Bool) :
      MarkerRun false ms st' → MarkerRun true (RTok.tclose :: ms) st'

/-- `trimmed.replace('data: ', '').trim()` (server.js line 106): since the
line is only reached when it starts with the marker, the first occurrence
replaced is the six-character prefix. -/
def jsonStrOf (line : String) : String := jsTrim (jsDrop (jsTrim line) 6)

/-- Processing of one reassembled line by the stream handler (server.js
lines 102-150): skip blank and non-data lines, pass the terminal sentinel
through, hand the parsed payload to the merger and re-emit exactly one
frame. The JSON parser is a parameter; the theorems quantify over it. -/
def processLine (parse : String → Option ChatEvent) (showR st : Bool)
    (line : String) : List String × Bool :=
  let trimmed := jsTrim line
  if trimmed.data.isEmpty || !(jsStartsWith trimmed "data: ") then ([], st)
  else
    let jsonStr := jsonStrOf line
    if jsonStr = "[DONE]" then (["data: [DONE]" ++ "\n\n"], st)
    else
      match parse jsonStr with
      | none => ([], st)
      | some data =>
        match firstDelta data with
        | none => ([], st)
        | some delta =>
          let p := mergeDelta showR st delta.reasoning_content delta.content
          let payload :=
            if showR && p.1.data.isEmpty then data
            else setFirstDelta data ⟨none, some p.1⟩
          (["data: " ++ serializeEvent payload ++ "\n\n"], p.2)

/-- Processing a list of reassembled lines in order (`lines.forEach`),
collecting every frame written to the client. -/
def processLines (parse : String → Option ChatEvent) (showR : Bool)
    (st : Bool) : List String → List String × Bool
  | [] => ([], st)
  | l :: ls =>
    let p := processLine parse showR st l
    let q := processLines parse showR p.2 ls
    (p.1 ++ q.1, q.2)

/-- The model lookup table, exactly as at server.js lines 24-32. -/
def MODEL_MAPPING : List (String × String) :=
  [("gpt-3.5-turbo", "nvidia/llama-3.1-nemotron-ultra-253b-v1"),
   ("gpt-4", "qwen/qwen3-coder-480b-a35b-instruct"),
   ("gpt-4-turbo", "moonshotai/kimi-k2-instruct-0905"),
   ("gpt-4o", "deepseek-ai/deepseek-v3.1"),
   ("claude-3-opus", "openai/gpt-oss-120b"),
   ("claude-3-sonnet", "openai/gpt-oss-20b"),
   ("gemini-pro", "qwen/qwen3-next-80b-a3b-thinking")]

/-- The fallback heuristic of server.js lines 67-72, applied to the
lowercased identifier. -/
def fallbackModel (modelLower : String) : String :=
  if jsIncludes modelLower "gpt-4" || jsIncludes modelLower "405b" then
    "meta/llama-3.1-405b-instruct"
  else "meta/llama-3.1-8b-instruct"

/-- The own property names of Object.prototype, which a JavaScript object
literal such as MODEL_MAPPING inherits: bracket access with any of these
keys yields a truthy value (eleven built-in functions, and the accessor
returning the prototype object itself). -/
def OBJECT_PROTOTYPE_KEYS : List String :=
  ["constructor", "hasOwnProperty", "isPrototypeOf", "propertyIsEnumerable",
   "toLocaleString", "toString", "valueOf", "__proto__", "__defineGetter__",
   "__defineSetter__", "__lookupGetter__", "__lookupSetter__"]

/-- The value `MODEL_MAPPING[model]` can resolve to: a backend model
identifier string (an own table entry or a fallback model), or a truthy
non-string member inherited from Object.prototype, recorded by its name. -/
inductive ModelResolution where
  | backend : String → ModelResolution
  | inherited : String → ModelResolution
deriving DecidableEq

/-- The property key JavaScript uses for `MODEL_MAPPING[model]`: an absent
(undefined) model coerces to the key string "undefined". -/
def jsKeyOf : Option String → String
  | none => "undefined"
  | some m => m

/-- JavaScript property access `MODEL_MAPPING[key]`: an own table entry
first, else an inherited Object.prototype member, else undefined. -/
def jsGetProp (key : String) : Option ModelResolution :=
  match List.lookup key MODEL_MAPPING with
  | some v => some (ModelResolution.backend v)
  | none =>
    if OBJECT_PROTOTYPE_KEYS.contains key then some (ModelResolution.inherited key)
    else none

/-- Backend model resolution (server.js lines 64-73): the property access
`MODEL_MAPPING[model]` (own entry or inherited Object.prototype member,
both truthy) wins; only when it yields undefined does the fallback run,
where `model.toLowerCase()` throws a TypeError for a request body without a
model field; the thrown error is the `Except.error` case. -/
def nimModelOf (model : Option String) : Except String ModelResolution :=
  match jsGetProp (jsKeyOf model) with
  | some v => Except.ok v
  | none =>
    match model with
    | none => Except.error "Cannot read properties of undefined (reading toLowerCase)"
    | some m => Except.ok (ModelResolution.backend (fallbackModel (jsLower m)))

/-- JavaScript `v || d` on an optional number: undefined, null and zero all
select the default. -/
def jsOrNum (v : Option ℚ) (d : ℚ) : ℚ :=
  match v with
  | none => d
  | some x => if x = 0 then d else x

/-- The fields of the inbound request body the handler destructures
(server.js line 62). Message objects pass through opaquely. -/
structure ChatRequest where
  model : Option String
  messages : List String
  temperature : Option ℚ
  max_tokens : Option ℚ
  stream : Option Bool
deriving DecidableEq

/-- The outbound backend request (server.js lines 75-82). -/
structure NimRequest where
  model : String
  messages : List String
  temperature : ℚ
  max_tokens : ℚ
  stream : Bool
deriving DecidableEq

/-- Construction of the outbound request from the resolved model and the
request body, with the `|| 0.6`, `|| 9024` and `|| true` defaulting of
server.js lines 78-81. -/
def buildNimRequest (nim : String) (req : ChatRequest) : NimRequest :=
  { model := nim
    messages := req.messages
    temperature := jsOrNum req.temperature 0.6
    max_tokens := jsOrNum req.max_tokens 9024
    stream := match req.stream with
      | none => true
      | some b => b || true }

/-- The observable outcome of the handler up to the backend call: the
outbound request it is about to post; a post whose model field is a truthy
non-string member inherited from Object.prototype (recorded by its name,
the other request fields built as usual); or the error response produced by
the surrounding catch (server.js lines 160-163). -/
inductive HandlerStep where
  | backendCall : NimRequest → HandlerStep
  | backendCallInherited : String → ChatRequest → HandlerStep
  | errorResponse : Nat → String → HandlerStep
deriving DecidableEq

/-- The chat-completions handler up to the point of calling the backend:
resolve the model (which may throw), then build the outbound request; a
thrown error is answered by the generic HTTP 500 payload. -/
def handleChat (req : ChatRequest) : HandlerStep :=
  match nimModelOf req.model with
  | Except.error e => HandlerStep.errorResponse 500 e
  | Except.ok (ModelResolution.backend nim) => HandlerStep.backendCall (buildNimRequest nim req)
  | Except.ok (ModelResolution.inherited name) => HandlerStep.backendCallInherited name req

/-- A concrete event used by witnesses: one choice whose delta carries
reasoning text and content text. -/
def exEventRC : ChatEvent := ⟨[some ⟨some "why", some "hi"⟩]⟩

/-- A concrete event used by witnesses: one choice whose delta carries only
content text. -/
def exEventC : ChatEvent := ⟨[some ⟨none, some "hi"⟩]⟩

/-- A concrete stand-in for JSON.parse on the inputs the witnesses and the
counterexample use: the serialized forms of the two concrete events parse to
those events, everything else fails to parse. -/
def exParse : String → Option ChatEvent :=
  fun s =>
    if s = serializeEvent exEventRC then some exEventRC
    else if s = serializeEvent exEventC then some exEventC
    else none

/-- A request body carrying temperature zero and no max_tokens, used by the
claim-C9 witness. -/
def exReq9 : ChatRequest :=
  { model := some "gpt-4", messages := ["hello"], temperature := some 0,
    max_tokens := none, stream := some true }

/-- A request body with no model field, used by the claim-C10 witness. -/
def exReqNoModel : ChatRequest :=
  { model := none, messages := ["hello"], temperature := none,
    max_tokens := none, stream := none }

/-- The delta stream of the specification's section-8 example:
two reasoning deltas followed by one answer delta. -/
def exStream : List DeltaObj := [⟨some "a", none⟩, ⟨some "b", none⟩, ⟨none, some "c"⟩]

/-- The counterexample input for claim C4: a terminal frame followed by a
further valid data frame in the same chunk. -/
def exLinesAfterDone : List String :=
  ["data: [DONE]", "data: " ++ serializeEvent exEventC]

/-- Two complete frames used by the claim-C1 witness. -/
def exFrames : List (List Char) := [['a'], ['b', 'c']]

/-- A fragmentation of the two frames plus one unterminated trailing byte,
splitting the second frame across chunk boundaries. -/
def exFrags : List (List Char) := [['a'], ['\n', 'b'], ['c', '\n', 'x']]

/-- The number of occurrences of one token in a token sequence. -/
def countTok (t : RTok) : List RTok → Nat
  | [] => 0
  | u :: us => (if u = t then 1 else 0) + countTok t us

/-- Claim C2: under the show display policy the channel merger implements
exactly the transition function the specification states on the single
reasoningBlockOpen bit, with the reasoning transition applied before the
answer transition when both channels are present, and empty output with
unchanged state when neither is present. -/
theorem show_merger_matches_spec_transition :
    ∀ (st : Bool) (r a : Option String), mergeShow st r a = specMergeShow st r a := by
  intro st r a
  rcases r with _ | rs <;> rcases a with _ | cs <;> cases st <;>
    simp only [mergeShow, specMergeShow, truthy]
  all_goals try rfl
  all_goals
    first
    | (by_cases hc : cs.data.isEmpty = true <;> by_cases hr : rs.data.isEmpty = true <;>
        simp [hc, hr, String.empty_append, String.append_empty, String.append_assoc])
    | (by_cases hc : cs.data.isEmpty = true <;>
        simp [hc, String.empty_append, String.append_empty, String.append_assoc])
    | (by_cases hr : rs.data.isEmpty = true <;>
        simp [hr, String.empty_append, String.append_empty, String.append_assoc])

/-- The hide branch of the pipeline never changes the reasoningBlockOpen
flag, whatever the line contains. -/
theorem processLine_hide_state (parse : String → Option ChatEvent) (st : Bool)
    (line : String) : (processLine parse false st line).2 = st := by
  simp only [processLine]
  split
  · rfl
  · split
    · rfl
    · cases parse (jsonStrOf line) with
      | none => rfl
      | some data =>
        dsimp only
        cases firstDelta data with
        | none => rfl
        | some delta => rfl

/-- Claim C3: under the hide display policy the merger's output for every
delta event is the answer text when present and the empty string otherwise,
the reasoning text is never used, the flag is untouched by every line, and
it therefore stays Closed across any whole stream. -/
theorem hide_policy_passthrough :
    (∀ (st : Bool) (d : DeltaObj),
        mergeDelta false st d.reasoning_content d.content = (d.content.getD "", st)) ∧
    (∀ (parse : String → Option ChatEvent) (st : Bool) (line : String),
        (processLine parse false st line).2 = st) ∧
    (∀ (parse : String → Option ChatEvent) (lines : List String),
        (processLines parse false false lines).2 = false) := by
  refine ⟨fun st d => rfl, processLine_hide_state, ?_⟩
  intro parse lines
  induction lines with
  | nil => rfl
  | cons l ls ih =>
    simp only [processLines]
    rw [processLine_hide_state]
    exact ih

/-- Counterexample to claim C8 as stated: the identifier toString is not in
the mapping table and its lowercased form contains neither gpt-4 nor 405b,
yet it does not resolve to the small default fallback model: the property
access hits the inherited Object.prototype member, which is truthy and
skips the fallback branch entirely. -/
theorem model_resolution_counterexample :
    List.lookup "toString" MODEL_MAPPING = none ∧
    (jsIncludes (jsLower "toString") "gpt-4" ||
      jsIncludes (jsLower "toString") "405b") = false ∧
    nimModelOf (some "toString") = Except.ok (ModelResolution.inherited "toString") ∧
    nimModelOf (some "toString") ≠
      Except.ok (ModelResolution.backend "meta/llama-3.1-8b-instruct") :=
  ⟨by decide, by decide, rfl,
   fun h => ModelResolution.noConfusion (Except.ok.inj h)⟩

/-- Claim C8 amended: the backend model is chosen by JavaScript property
access of the request's model identifier on the mapping object: an exact
own-table hit wins; an identifier missing from the table but naming an
inherited Object.prototype member resolves to that inherited truthy
non-string member, skipping the fallback; every remaining identifier whose
lowercased form contains gpt-4 or 405b resolves to the single large
fallback model, and every other remaining identifier to the single small
default fallback model. -/
theorem model_resolution_amended :
    (∀ (m nim : String), List.lookup m MODEL_MAPPING = some nim →
        nimModelOf (some m) = Except.ok (ModelResolution.backend nim)) ∧
    (∀ m : String, List.lookup m MODEL_MAPPING = none →
      m ∈ OBJECT_PROTOTYPE_KEYS →
        nimModelOf (some m) = Except.ok (ModelResolution.inherited m)) ∧
    (∀ m : String, List.lookup m MODEL_MAPPING = none →
      m ∉ OBJECT_PROTOTYPE_KEYS →
      (jsIncludes (jsLower m) "gpt-4" || jsIncludes (jsLower m) "405b") = true →
        nimModelOf (some m) =
          Except.ok (ModelResolution.backend "meta/llama-3.1-405b-instruct")) ∧
    (∀ m : String, List.lookup m MODEL_MAPPING = none →
      m ∉ OBJECT_PROTOTYPE_KEYS →
      (jsIncludes (jsLower m) "gpt-4" || jsIncludes (jsLower m) "405b") = false →
        nimModelOf (some m) =
          Except.ok (ModelResolution.backend "meta/llama-3.1-8b-instruct")) := by
  refine ⟨?_, ?_, ?_, ?_⟩
  · intro m nim h
    simp [nimModelOf, jsGetProp, jsKeyOf, h]
  · intro m h hp
    simp [nimModelOf, jsGetProp, jsKeyOf, h, hp]
  · intro m h hp hin
    simp [nimModelOf, jsGetProp, jsKeyOf, h, hp, fallbackModel, hin]
  · intro m h hp hin
    simp [nimModelOf, jsGetProp, jsKeyOf, h, hp, fallbackModel, hin]

/-- Witness for the amended claim C8: a table hit, an inherited
Object.prototype member, a fallback to the large model, and a fallback to
the small model, each at a concrete identifier. -/
theorem model_resolution_amended_witness :
    nimModelOf (some "gpt-4") =
      Except.ok (ModelResolution.backend "qwen/qwen3-coder-480b-a35b-instruct") ∧
    nimModelOf (some "hasOwnProperty") =
      Except.ok (ModelResolution.inherited "hasOwnProperty") ∧
    nimModelOf (some "GPT-4o-mini") =
      Except.ok (ModelResolution.backend "meta/llama-3.1-405b-instruct") ∧
    nimModelOf (some "mistral-7b") =
      Except.ok (ModelResolution.backend "meta/llama-3.1-8b-instruct") :=
  ⟨model_resolution_amended.1 "gpt-4" "qwen/qwen3-coder-480b-a35b-instruct" (by decide),
   model_resolution_amended.2.1 "hasOwnProperty" (by decide) (by decide),
   model_resolution_amended.2.2.1 "GPT-4o-mini" (by decide) (by decide) (by decide),
   model_resolution_amended.2.2.2 "mistral-7b" (by decide) (by decide) (by decide)⟩

/-- Claim C9: the outbound request carries temperature 0.6 whenever the
client temperature is absent, null or exactly zero, and max_tokens 9024
whenever the client max_tokens is absent, null or exactly zero; a client
temperature of exactly zero is therefore not preserved. -/
theorem request_defaulting :
    ∀ (req : ChatRequest) (nim : String),
      ((req.temperature = none ∨ req.temperature = some 0) →
          (buildNimRequest nim req).temperature = 0.6) ∧
      ((req.max_tokens = none ∨ req.max_tokens = some 0) →
          (buildNimRequest nim req).max_tokens = 9024) ∧
      (req.temperature = some 0 → (buildNimRequest nim req).temperature ≠ 0) := by
  intro req nim
  refine ⟨?_, ?_, ?_⟩
  · rintro (h | h) <;> simp [buildNimRequest, jsOrNum, h]
  · rintro (h | h) <;> simp [buildNimRequest, jsOrNum, h]
  · intro h
    simp [buildNimRequest, jsOrNum, h]
    norm_num

/-- Witness for claim C9: a request with temperature exactly zero and no
max_tokens is forwarded with temperature 0.6 and max_tokens 9024. -/
theorem request_defaulting_witness :
    (buildNimRequest "qwen/qwen3-coder-480b-a35b-instruct" exReq9).temperature = 0.6 ∧
    (buildNimRequest "qwen/qwen3-coder-480b-a35b-instruct" exReq9).max_tokens = 9024 :=
  ⟨(request_defaulting exReq9 "qwen/qwen3-coder-480b-a35b-instruct").1 (Or.inr rfl),
   (request_defaulting exReq9 "qwen/qwen3-coder-480b-a35b-instruct").2.1 (Or.inl rfl)⟩

/-- Claim C10: a request body without a model field makes the fallback
resolution throw (it lowercases the absent value) before any backend call,
and the handler answers with the generic HTTP 500 error payload instead of
selecting a fallback model. -/
theorem missing_model_throws :
    ∀ req : ChatRequest, req.model = none →
      handleChat req = HandlerStep.errorResponse 500
          "Cannot read properties of undefined (reading toLowerCase)" ∧
      ∀ r : NimRequest, handleChat req ≠ HandlerStep.backendCall r := by
  intro req h
  have hu : nimModelOf none = Except.error
      "Cannot read properties of undefined (reading toLowerCase)" := rfl
  have hres : handleChat req = HandlerStep.errorResponse 500
      "Cannot read properties of undefined (reading toLowerCase)" := by
    simp [handleChat, h, hu]
  exact ⟨hres, fun r hc => by rw [hres] at hc; exact HandlerStep.noConfusion hc⟩

/-- Witness for claim C10: the concrete model-less request body is answered
with the 500 error payload. -/
theorem missing_model_throws_witness :
    exReqNoModel.model = none ∧
    handleChat exReqNoModel = HandlerStep.errorResponse 500
        "Cannot read properties of undefined (reading toLowerCase)" :=
  ⟨rfl, (missing_model_throws exReqNoModel rfl).1⟩

/-- A string starting with the data marker is not empty. -/
theorem startsWith_data_nonempty (s : String)
    (h : jsStartsWith s "data: " = true) : s.data.isEmpty = false := by
  cases hd : s.data with
  | nil =>
    rw [jsStartsWith, hd] at h
    exact absurd h (by decide)
  | cons c cl => rfl

/-- Updating the first delta of an event that has one makes it the first
delta. -/
theorem firstDelta_set (ev : ChatEvent) (d d' : DeltaObj)
    (h : firstDelta ev = some d) :
    firstDelta (setFirstDelta ev d') = some d' := by
  rcases ev with ⟨choices⟩
  cases choices with
  | nil => exact absurd h (by simp [firstDelta])
  | cons od rest => rfl

/-- Claim C7: a line that is blank after trimming or does not start with the
data marker produces no client output; a data line (other than the terminal
sentinel) whose payload fails to parse as JSON, or parses without a first
choice delta object, produces no output frame, leaves the merger state
untouched, and does not disturb the processing of any subsequent lines. -/
theorem malformed_line_tolerance :
    ∀ (parse : String → Option ChatEvent) (showR st : Bool) (line : String),
      ((jsTrim line).data.isEmpty = true ∨
        jsStartsWith (jsTrim line) "data: " = false ∨
        (jsonStrOf line ≠ "[DONE]" ∧ parse (jsonStrOf line) = none) ∨
        (jsonStrOf line ≠ "[DONE]" ∧
          ∃ ev, parse (jsonStrOf line) = some ev ∧ firstDelta ev = none)) →
      processLine parse showR st line = ([], st) ∧
      ∀ rest, processLines parse showR st (line :: rest) =
        processLines parse showR st rest := by
  intro parse showR st line h
  have hmain : processLine parse showR st line = ([], st) := by
    rcases h with h | h | ⟨hd, hp⟩ | ⟨hd, ev, hp, hf⟩
    · simp [processLine, h]
    · simp [processLine, h]
    · simp only [processLine]
      cases hb : ((jsTrim line).data.isEmpty || !jsStartsWith (jsTrim line) "data: ") with
      | true => simp [hb]
      | false => simp [hb, hd, hp]
    · simp only [processLine]
      cases hb : ((jsTrim line).data.isEmpty || !jsStartsWith (jsTrim line) "data: ") with
      | true => simp [hb]
      | false => simp [hb, hd, hp, hf]
  refine ⟨hmain, fun rest => ?_⟩
  simp only [processLines, hmain]
  simp

/-- Witness for claim C7: a data line with unparsable JSON emits nothing,
and dropping it from a stream leaves the processing of the rest unchanged. -/
theorem malformed_line_tolerance_witness :
    processLine (fun _ => none) false false "data: \x7bbad" = ([], false) ∧
    processLines (fun _ => none) false false ["data: \x7bbad", "data: [DONE]"] =
      processLines (fun _ => none) false false ["data: [DONE]"] :=
  ⟨(malformed_line_tolerance (fun _ => none) false false "data: \x7bbad"
      (Or.inr (Or.inr (Or.inl ⟨by decide, rfl⟩)))).1,
   (malformed_line_tolerance (fun _ => none) false false "data: \x7bbad"
      (Or.inr (Or.inr (Or.inl ⟨by decide, rfl⟩)))).2 ["data: [DONE]"]⟩

/-- Claim C6: with the process configuration SHOW_REASONING = false, every
non-terminal event that is emitted to the client produces exactly one frame
of the form data-marker + serialized payload + two newlines, where the
payload is the parsed event with the first delta's reasoning field removed
and the merged text written into its single content field; a terminal line
produces the frame data-marker + DONE sentinel + two newlines. -/
theorem reemitter_frame_format :
    ∀ (parse : String → Option ChatEvent) (st : Bool) (line : String)
      (ev : ChatEvent) (d : DeltaObj),
      jsStartsWith (jsTrim line) "data: " = true →
      jsonStrOf line ≠ "[DONE]" →
      parse (jsonStrOf line) = some ev →
      firstDelta ev = some d →
      processLine parse SHOW_REASONING st line =
        (["data: " ++ serializeEvent
            (setFirstDelta ev ⟨none, some (d.content.getD "")⟩) ++ "\n\n"], st) ∧
      firstDelta (setFirstDelta ev ⟨none, some (d.content.getD "")⟩) =
        some ⟨none, some (d.content.getD "")⟩ ∧
      (∀ (st' : Bool) (l : String),
        jsStartsWith (jsTrim l) "data: " = true →
        jsonStrOf l = "[DONE]" →
        processLine parse SHOW_REASONING st' l = (["data: [DONE]" ++ "\n\n"], st')) := by
  intro parse st line ev d hsw hdone hp hd
  have hne : (jsTrim line).data.isEmpty = false := startsWith_data_nonempty _ hsw
  refine ⟨?_, firstDelta_set ev d _ hd, ?_⟩
  · simp only [processLine, hne, hsw, SHOW_REASONING]
    rw [if_neg (by simp), if_neg hdone, hp]
    dsimp only
    rw [hd]
    rfl
  · intro st' l hsw' hdone'
    have hne' : (jsTrim l).data.isEmpty = false := startsWith_data_nonempty _ hsw'
    simp only [processLine, hne', hsw', SHOW_REASONING]
    rw [if_neg (by simp), if_pos hdone']

/-- Witness for claim C6: a concrete data line carrying reasoning and
content is re-emitted as exactly one frame whose payload has the reasoning
field removed and content equal to the merged (hide-policy) text. -/
theorem reemitter_frame_format_witness :
    exParse (jsonStrOf ("data: " ++ serializeEvent exEventRC)) = some exEventRC ∧
    processLine exParse SHOW_REASONING false ("data: " ++ serializeEvent exEventRC) =
      (["data: " ++ serializeEvent (setFirstDelta exEventRC ⟨none, some "hi"⟩) ++ "\n\n"],
        false) :=
  ⟨by decide,
   (reemitter_frame_format exParse false ("data: " ++ serializeEvent exEventRC)
      exEventRC ⟨some "why", some "hi"⟩ (by decide) (by decide) (by decide) rfl).1⟩

/-- Counterexample to claim C4 as stated: after the terminal DONE frame is
re-emitted, processing does not stop; a valid data frame arriving after it
in the same stream is still processed and emitted to the client, so a second
frame follows the terminal frame. -/
theorem terminal_not_last_counterexample :
    (processLines exParse SHOW_REASONING false exLinesAfterDone).1 =
      ["data: [DONE]" ++ "\n\n",
       "data: " ++ serializeEvent (setFirstDelta exEventC ⟨none, some "hi"⟩) ++ "\n\n"] := by
  decide

/-- Claim C4 amended: each terminal DONE line re-emits exactly one terminal
output frame and leaves the merger state unchanged, but event processing
does not stop there: the remaining lines are processed exactly as if the
terminal line were removed. -/
theorem terminal_frame_emission (parse : String → Option ChatEvent)
    (showR st : Bool) (rest : List String) :
    processLines parse showR st ("data: [DONE]" :: rest) =
      (("data: [DONE]" ++ "\n\n") :: (processLines parse showR st rest).1,
        (processLines parse showR st rest).2) := by
  have h1 : processLine parse showR st "data: [DONE]" =
      (["data: [DONE]" ++ "\n\n"], st) := rfl
  simp only [processLines, h1]
  rfl

/-- The split-then-pop view of a character sequence coincides with its
frames-plus-tail decomposition. -/
theorem splitNl_eq (l : List Char) :
    splitNl l = (splitFrames l).1 ++ [(splitFrames l).2] := by
  induction l with
  | nil => rfl
  | cons c rest ih =>
    by_cases h : c = '\n'
    · simp [splitNl, splitFrames, h, ih]
    · cases hf : splitFrames rest with
      | mk fs buf =>
        have ih' : splitNl rest = fs ++ [buf] := by rw [ih, hf]
        cases fs with
        | nil => simp [splitNl, splitFrames, h, ih', hf]
        | cons f fs' => simp [splitNl, splitFrames, h, ih', hf]

/-- One reassembler step emits the complete frames of buffer-plus-chunk and
retains its unterminated tail. -/
theorem handleChunk_eq (buffer chunk : List Char) :
    handleChunk buffer chunk =
      ((splitFrames (buffer ++ chunk)).1, (splitFrames (buffer ++ chunk)).2) := by
  unfold handleChunk
  rw [splitNl_eq]
  simp [List.dropLast_concat, List.getLastD_concat]

/-- Frame decomposition of a concatenation: the complete frames of the first
part, then the frames of its tail glued onto the second part. -/
theorem splitFrames_append (a b : List Char) :
    splitFrames (a ++ b) =
      ((splitFrames a).1 ++ (splitFrames ((splitFrames a).2 ++ b)).1,
        (splitFrames ((splitFrames a).2 ++ b)).2) := by
  induction a with
  | nil => simp [splitFrames]
  | cons c a' ih =>
    by_cases h : c = '\n'
    · simp [splitFrames, h, ih]
    · cases hf : splitFrames a' with
      | mk fs buf =>
        cases fs with
        | nil =>
          have ih' : splitFrames (a' ++ b) = splitFrames (buf ++ b) := by
            rw [ih, hf]; simp
          cases hu : splitFrames (buf ++ b) with
          | mk us ubuf =>
            cases us with
            | nil => simp [splitFrames, h, hf, ih', hu, List.cons_append]
            | cons u us' => simp [splitFrames, h, hf, ih', hu, List.cons_append]
        | cons f fs' =>
          have ih' : splitFrames (a' ++ b) =
              (f :: (fs' ++ (splitFrames (buf ++ b)).1), (splitFrames (buf ++ b)).2) := by
            rw [ih, hf]; simp
          simp [splitFrames, h, hf, ih', List.cons_append]

/-- A newline-free sequence has no complete frame and is all tail. -/
theorem splitFrames_noNl (t : List Char) (h : '\n' ∉ t) : splitFrames t = ([], t) := by
  induction t with
  | nil => rfl
  | cons c t' ih =>
    simp only [List.mem_cons, not_or] at h
    obtain ⟨h1, h2⟩ := h
    simp [splitFrames, Ne.symm h1, ih h2]

/-- The retained tail of a frame decomposition never contains a newline. -/
theorem splitFrames_buf_noNl (l : List Char) : '\n' ∉ (splitFrames l).2 := by
  induction l with
  | nil => simp [splitFrames]
  | cons c rest ih =>
    by_cases h : c = '\n'
    · simpa [splitFrames, h] using ih
    · cases hf : splitFrames rest with
      | mk fs buf =>
        rw [hf] at ih
        cases fs with
        | nil =>
          simp only [splitFrames] at ih ⊢
          simp [h, hf, List.mem_cons]
          exact ⟨fun e => h e.symm, ih⟩
        | cons f fs' =>
          simp only [splitFrames] at ih ⊢
          simpa [h, hf] using ih

/-- Feeding chunks one at a time from a newline-free buffer is the same as
decomposing the whole concatenation at once. -/
theorem feedAll_eq (chunks : List (List Char)) :
    ∀ buffer : List Char, '\n' ∉ buffer →
      feedAll buffer chunks =
        ((splitFrames (buffer ++ chunks.flatten)).1,
          (splitFrames (buffer ++ chunks.flatten)).2) := by
  induction chunks with
  | nil =>
    intro buffer hb
    simp [feedAll, splitFrames_noNl buffer hb]
  | cons c cs ih =>
    intro buffer hb
    have hassoc : buffer ++ (c :: cs).flatten = (buffer ++ c) ++ cs.flatten := by
      simp [List.flatten_cons, List.append_assoc]
    simp only [feedAll, handleChunk_eq, ih _ (splitFrames_buf_noNl (buffer ++ c))]
    rw [hassoc, splitFrames_append (buffer ++ c) cs.flatten]

/-- Prepending one newline-terminated, newline-free frame to a sequence
prepends exactly that frame to its decomposition. -/
theorem splitFrames_frame_cons (f t : List Char) :
    '\n' ∉ f →
      splitFrames (f ++ '\n' :: t) = (f :: (splitFrames t).1, (splitFrames t).2) := by
  induction f with
  | nil => intro _; simp [splitFrames]
  | cons c f' ih =>
    intro hf
    simp only [List.mem_cons, not_or] at hf
    obtain ⟨h1, h2⟩ := hf
    simp [splitFrames, Ne.symm h1, ih h2, List.cons_append]

/-- Decomposing the concatenation of newline-terminated frames followed by a
newline-free trailing part recovers exactly the frames and the trailing
part. -/
theorem splitFrames_of_frames (frames : List (List Char)) (trailing : List Char) :
    (∀ f ∈ frames, '\n' ∉ f) → '\n' ∉ trailing →
      splitFrames ((frames.map (fun f => f ++ ['\n'])).flatten ++ trailing) =
        (frames, trailing) := by
  induction frames with
  | nil => intro _ ht; simpa using splitFrames_noNl trailing ht
  | cons f fs ih =>
    intro hf ht
    have h1 : '\n' ∉ f := hf f (List.mem_cons_self f fs)
    have h2 : ∀ g ∈ fs, '\n' ∉ g := fun g hg => hf g (List.mem_cons_of_mem f hg)
    simp only [List.map_cons, List.flatten_cons, List.append_assoc,
      List.singleton_append]
    have key := splitFrames_frame_cons f
      ((fs.map (fun g => g ++ ['\n'])).flatten ++ trailing) h1
    rw [ih h2 ht] at key
    exact key

/-- Claim C1: for every sequence of complete newline-terminated frames and
every fragmentation of their concatenated text (possibly followed by
unterminated trailing bytes), feeding the fragments in order to the frame
reassembler emits exactly the original frames in order, with no byte
dropped or duplicated across fragment boundaries; the unterminated trailing
bytes are exactly what remains in the pending buffer at stream end, and are
never emitted. -/
theorem reassembly_no_loss :
    ∀ (frames frags : List (List Char)) (trailing : List Char),
      (∀ f ∈ frames, '\n' ∉ f) → '\n' ∉ trailing →
      frags.flatten = (frames.map (fun f => f ++ ['\n'])).flatten ++ trailing →
      feedAll [] frags = (frames, trailing) := by
  intro frames frags trailing hf ht hsplit
  rw [feedAll_eq frags [] (by simp), List.nil_append, hsplit,
    splitFrames_of_frames frames trailing hf ht]

/-- Witness for claim C1: two frames split across three fragments with one
trailing unterminated byte are reassembled exactly. -/
theorem reassembly_no_loss_witness :
    exFrags.flatten = (exFrames.map (fun f => f ++ ['\n'])).flatten ++ ['x'] ∧
    feedAll [] exFrags = (exFrames, ['x']) :=
  ⟨by decide,
   reassembly_no_loss exFrames exFrags ['x'] (by decide) (by decide) (by decide)⟩

/-- The string-level show merger renders exactly the token-level merger's
tokens, and both agree on the new flag. -/
theorem mergeShow_toks (st : Bool) (r c : Option String) :
    (mergeShow st r c).1 = renderToks (mergeShowToks st r c).1 ∧
    (mergeShow st r c).2 = (mergeShowToks st r c).2 := by
  rcases r with _ | rs <;> rcases c with _ | cs <;> cases st <;>
    simp only [mergeShow, mergeShowToks, truthy]
  all_goals
    first
    | exact ⟨rfl, rfl⟩
    | (by_cases hc : cs.data.isEmpty = true <;> by_cases hr : rs.data.isEmpty = true <;>
        simp [hc, hr, renderToks, renderTok, String.empty_append, String.append_empty,
          String.append_assoc])
    | (by_cases hc : cs.data.isEmpty = true <;>
        simp [hc, renderToks, renderTok, String.empty_append, String.append_empty,
          String.append_assoc])
    | (by_cases hr : rs.data.isEmpty = true <;>
        simp [hr, renderToks, renderTok, String.empty_append, String.append_empty,
          String.append_assoc])

/-- Rendering distributes over token concatenation. -/
theorem renderToks_append (a b : List RTok) :
    renderToks (a ++ b) = renderToks a ++ renderToks b := by
  induction a with
  | nil => simp [renderToks, String.empty_append]
  | cons t ts ih => simp [renderToks, ih, String.append_assoc]

/-- The string-level run of the show merger renders exactly the token-level
run, and both agree on the final flag. -/
theorem runShow_toks (ds : List DeltaObj) :
    ∀ st : Bool, sjoin (runShow st ds).1 = renderToks (runShowToks st ds).1 ∧
      (runShow st ds).2 = (runShowToks st ds).2 := by
  induction ds with
  | nil => intro st; exact ⟨rfl, rfl⟩
  | cons d ds ih =>
    intro st
    simp only [runShow, runShowToks, sjoin]
    obtain ⟨hA, hB⟩ := mergeShow_toks st d.reasoning_content d.content
    obtain ⟨hC, hD⟩ := ih (mergeShowToks st d.reasoning_content d.content).2
    constructor
    · rw [renderToks_append, hA, hB, hC]
    · rw [hB, hD]

/-- Marker runs compose. -/
theorem MarkerRun.append : ∀ {st st' st'' : Bool} {ms ms' : List RTok},
    MarkerRun st ms st' → MarkerRun st' ms' st'' → MarkerRun st (ms ++ ms') st'' := by
  intro st st' st'' ms ms' h1
  induction h1 with
  | nil s => intro h2; exact h2
  | openStep ms1 s1 h ih => intro h2; exact MarkerRun.openStep _ _ (ih h2)
  | closeStep ms1 s1 h ih => intro h2; exact MarkerRun.closeStep _ _ (ih h2)

/-- The marker tokens of one merger step form a legal marker run between the
old and new flag states. -/
theorem mergeShowToks_markers (st : Bool) (r c : Option String) :
    MarkerRun st (markerSeq (mergeShowToks st r c).1) (mergeShowToks st r c).2 := by
  rcases r with _ | rs <;> rcases c with _ | cs <;> cases st <;>
    simp only [mergeShowToks, truthy]
  all_goals
    first
    | (by_cases hc : cs.data.isEmpty = true <;> by_cases hr : rs.data.isEmpty = true <;>
        simp [hc, hr, markerSeq, isMarker])
    | (by_cases hc : cs.data.isEmpty = true <;> simp [hc, markerSeq, isMarker])
    | (by_cases hr : rs.data.isEmpty = true <;> simp [hr, markerSeq, isMarker])
    | simp [markerSeq, isMarker]
  all_goals
    first
    | exact MarkerRun.nil _
    | exact MarkerRun.openStep _ _ (MarkerRun.nil _)
    | exact MarkerRun.closeStep _ _ (MarkerRun.nil _)
    | exact MarkerRun.openStep _ _ (MarkerRun.closeStep _ _ (MarkerRun.nil _))

/-- The marker tokens of a whole show-policy run form a legal marker run
from the initial to the final flag state. -/
theorem runShowToks_markers (ds : List DeltaObj) :
    ∀ st : Bool, MarkerRun st (markerSeq (runShowToks st ds).1) (runShowToks st ds).2 := by
  induction ds with
  | nil => intro st; exact MarkerRun.nil st
  | cons d ds ih =>
    intro st
    simp only [runShowToks, markerSeq, List.filter_append]
    exact MarkerRun.append (mergeShowToks_markers st _ _) (ih _)

/-- A legal marker run ending in the Closed state is exactly a sequence of
correctly paired, non-overlapping open/close pairs (preceded by one closing
marker when it starts in the Open state). -/
theorem markerRun_closed_aux : ∀ {st e : Bool} {ms : List RTok},
    MarkerRun st ms e → e = false →
      ms = cond st (RTok.tclose :: pairSeq (countTok RTok.topen ms))
             (pairSeq (countTok RTok.topen ms)) := by
  intro st e ms h
  induction h with
  | nil s => intro he; subst he; rfl
  | openStep ms1 s1 h ih =>
    intro he
    have ih' := ih he
    simp only [cond] at ih' ⊢
    have hcnt : countTok RTok.topen (RTok.topen :: ms1) = countTok RTok.topen ms1 + 1 := by
      simp [countTok, Nat.add_comm]
    rw [hcnt]
    simp only [pairSeq]
    exact congrArg (RTok.topen :: ·) ih'
  | closeStep ms1 s1 h ih =>
    intro he
    have ih' := ih he
    simp only [cond] at ih' ⊢
    have hcnt : countTok RTok.topen (RTok.tclose :: ms1) = countTok RTok.topen ms1 := by
      simp [countTok]
    rw [hcnt]
    exact congrArg (RTok.tclose :: ·) ih'

/-- Token counting distributes over concatenation. -/
theorem countTok_append (t : RTok) (a b : List RTok) :
    countTok t (a ++ b) = countTok t a + countTok t b := by
  induction a with
  | nil => simp [countTok]
  | cons u us ih => simp [countTok, ih, Nat.add_assoc]

/-- One merger step emits one open marker exactly when a truthy reasoning
text arrives while the block is closed. -/
theorem mergeShowToks_count (st : Bool) (r c : Option String) :
    countTok RTok.topen (mergeShowToks st r c).1 =
      (if truthy r && !st then 1 else 0) := by
  rcases r with _ | rs <;> rcases c with _ | cs <;> cases st <;>
    simp only [mergeShowToks, truthy]
  all_goals
    first
    | (by_cases hc : cs.data.isEmpty = true <;> by_cases hr : rs.data.isEmpty = true <;>
        simp [hc, hr, countTok])
    | (by_cases hc : cs.data.isEmpty = true <;> simp [hc, countTok])
    | (by_cases hr : rs.data.isEmpty = true <;> simp [hr, countTok])
    | simp [countTok]

/-- The open markers of a whole run count exactly the reasoning-start
deltas. -/
theorem runShowToks_count (ds : List DeltaObj) :
    ∀ st : Bool, countTok RTok.topen (runShowToks st ds).1 = startCount st ds := by
  induction ds with
  | nil => intro st; rfl
  | cons d ds ih =>
    intro st
    simp only [runShowToks, startCount, countTok_append, mergeShowToks_count, ih]

/-- Counting a marker token is unaffected by discarding text tokens. -/
theorem countTok_markerSeq (t : RTok) (h : isMarker t = true) (ts : List RTok) :
    countTok t (markerSeq ts) = countTok t ts := by
  induction ts with
  | nil => rfl
  | cons u us ih =>
    by_cases hu : isMarker u = true
    · simp [markerSeq, List.filter_cons, hu, countTok] at ih ⊢
      simp [ih]
    · have hne : u ≠ t := fun e => hu (e ▸ h)
      simp [markerSeq, List.filter_cons, hu, countTok, hne] at ih ⊢
      exact ih

/-- The paired sequence contains n open markers. -/
theorem pairSeq_count_open (n : Nat) : countTok RTok.topen (pairSeq n) = n := by
  induction n with
  | zero => rfl
  | succ k ih => simp [pairSeq, countTok, ih, Nat.add_comm]

/-- The paired sequence contains n close markers. -/
theorem pairSeq_count_close (n : Nat) : countTok RTok.tclose (pairSeq n) = n := by
  induction n with
  | zero => rfl
  | succ k ih => simp [pairSeq, countTok, ih, Nat.add_comm]

/-- Claim C5: under the show policy, for every stream with N reasoning-start
deltas (deltas whose truthy reasoning text arrives while the block is
closed) in which every opened reasoning block is eventually closed by an
answer delta (so the run ends with the block Closed), the emitted output
contains exactly N open markers and N close markers, correctly paired with
no overlap, and the concatenated string output is exactly the rendering of
the token stream. -/
theorem show_marker_pairing :
    ∀ (ds : List DeltaObj) (N : Nat),
      startCount false ds = N →
      (runShowToks false ds).2 = false →
      markerSeq (runShowToks false ds).1 = pairSeq N ∧
      countTok RTok.topen (runShowToks false ds).1 = N ∧
      countTok RTok.tclose (runShowToks false ds).1 = N ∧
      sjoin (runShow false ds).1 = renderToks (runShowToks false ds).1 := by
  intro ds N hN hend
  have hrun := runShowToks_markers ds false
  rw [hend] at hrun
  have hms := markerRun_closed_aux hrun rfl
  simp only [cond] at hms
  have hcount : countTok RTok.topen (markerSeq (runShowToks false ds).1) =
      countTok RTok.topen (runShowToks false ds).1 :=
    countTok_markerSeq RTok.topen rfl ((runShowToks false ds).1)
  have hopen : countTok RTok.topen (runShowToks false ds).1 = N := by
    rw [runShowToks_count ds false, hN]
  rw [hcount, hopen] at hms
  refine ⟨hms, hopen, ?_, (runShow_toks ds false).1⟩
  rw [← countTok_markerSeq RTok.tclose rfl ((runShowToks false ds).1), hms,
    pairSeq_count_close]

/-- Witness for claim C5: the specification's section-8 example stream, with
one reasoning-start delta, produces exactly one correctly paired open/close
marker pair. -/
theorem show_marker_pairing_witness :
    startCount false exStream = 1 ∧
    (runShowToks false exStream).2 = false ∧
    markerSeq (runShowToks false exStream).1 = pairSeq 1 ∧
    sjoin (runShow false exStream).1 = renderToks (runShowToks false exStream).1 :=
  ⟨by decide, by decide,
   (show_marker_pairing exStream 1 (by decide) (by decide)).1,
   (show_marker_pairing exStream 1 (by decide) (by decide)).2.2.2⟩
